import Mathlib

/-!
Verification of the EmailNator client (`src/EmailNator.py`) against its
natural-language specification.

The embedding is shallow: strings manipulated character-wise are `List Char`,
Python `Optional` values are `Option`, Python exceptions that escape a function
are `Except`, and the HTTP transport / BeautifulSoup collaborators are
abstracted as explicit inputs (a sequence of attempt outcomes for the
transport, a pre-extracted header structure for the HTML parser), exactly as
the spec designates them external black boxes.
-/

namespace EmailNator

/-- Convert a string literal to the character-list representation used by the
embedding. -/
def toL (s : String) : List Char := s.toList

/-! ## Python string primitives used by the source -/

/-- `isPrefixL pat s` : does `s` start with `pat`?  (Boolean, executable.) -/
def isPrefixL : List Char → List Char → Bool
  | [], _ => true
  | _ :: _, [] => false
  | p :: ps, c :: cs => p == c && isPrefixL ps cs

/-- Python's substring test `pat in s` for character lists. -/
def containsSeq (pat : List Char) : List Char → Bool
  | [] => isPrefixL pat []
  | c :: rest => isPrefixL pat (c :: rest) || containsSeq pat rest

/-- Python's substring test `pat in s` on `String`s (used for `"419" in str(e)`
in `error_handler`). -/
def containsSub (s pat : String) : Bool := containsSeq (toL pat) (toL s)

/-- Python `s.split(sep)` for a single-character separator `sep`
(the source only ever splits on `'.'` and `'+'`). -/
def pySplitC (sep : Char) : List Char → List (List Char)
  | [] => [[]]
  | c :: rest =>
    match pySplitC sep rest with
    | [] => [[]]
    | p :: ps => if c == sep then [] :: p :: ps else (c :: p) :: ps

/-- Characters removed by Python's `str.strip()` with no argument. -/
def isPyWS (c : Char) : Bool :=
  c == ' ' || c == '\t' || c == '\n' || c == '\r' || c == '\x0b' || c == '\x0c'

/-- Python `s.strip()` : drop leading and trailing whitespace. -/
def trimL (s : List Char) : List Char :=
  ((s.dropWhile isPyWS).reverse.dropWhile isPyWS).reverse

/-- Number of occurrences of the character `d` in a character list
(used to restate the premium-address segment count). -/
def countC (d : Char) : List Char → Nat
  | [] => 0
  | c :: rest => (if c == d then 1 else 0) + countC d rest

/-- Position of the first occurrence of `pat` in a character list, if any
(used to restate the body-extraction split). -/
def firstOccIdx (pat : List Char) : List Char → Option Nat
  | [] => if isPrefixL pat [] then some 0 else none
  | c :: rest =>
    if isPrefixL pat (c :: rest) then some 0
    else (firstOccIdx pat rest).map (· + 1)

/-- Python `s.split(sep, 1)` restricted to the information the source uses:
the pair (text before the first occurrence of `sep`, text after it), or
`none` when `sep` does not occur in `s`. -/
def splitFirst (pat : List Char) : List Char → Option (List Char × List Char)
  | [] => if isPrefixL pat [] then some ([], []) else none
  | c :: rest =>
    if isPrefixL pat (c :: rest) then
      some ([], List.drop pat.length (c :: rest))
    else
      match splitFirst pat rest with
      | some (b, a) => some (c :: b, a)
      | none => none

/-! ## `_is_premium_email` (src/EmailNator.py lines 57-67)

```python
parts_by_dot = email.split('.')
parts_by_plus = [part.split('+') for part in parts_by_dot]
all_parts = [part for sublist in parts_by_plus for part in sublist]
return len(all_parts) <= num + 1
```
-/

/-- `EmailNatorClient._is_premium_email`, translated from the source.  Note it
splits the **whole** address string, domain included. -/
def is_premium_email (email : List Char) (num : Nat) : Bool :=
  let parts_by_dot := pySplitC '.' email
  let parts_by_plus := parts_by_dot.map (pySplitC '+')
  let all_parts := parts_by_plus.flatten
  all_parts.length ≤ num + 1

/-- The local part of an address: the text before the first `'@'`
(used only to state the spec's reading of the premium heuristic). -/
def localPart (email : List Char) : List Char := email.takeWhile (· != '@')

/-- The segment count the claim attributes to the code: split the
**local part** on `'.'`, then each piece on `'+'`, and count. -/
def claimSegCount (email : List Char) : Nat :=
  (((pySplitC '.' (localPart email)).map (pySplitC '+')).flatten).length

/-- The premium test as the claim states it (on the local part only). -/
def claimPremium (email : List Char) (num : Nat) : Bool :=
  claimSegCount email ≤ num + 1

/-! ## `error_handler` / `_make_request` (src/EmailNator.py lines 14-33, 69-93)

The HTTP transport is an external collaborator; a call to the wrapped
function is modelled by its outcome.  `_make_request` under
`@error_handler(max_retries=3)` becomes a bounded loop over a sequence of
attempt outcomes `f : Nat → Outcome α`: attempt `i` either returns a value,
raises `requests.HTTPError` (carrying the HTTP status and the text `str(e)`),
or raises some other exception. -/

/-- Outcome of one attempt of the wrapped function: normal return,
`requests.HTTPError` (status code and `str(e)` text), or any other
exception. -/
inductive Outcome (α : Type) where
  | ok (val : α)
  | httpError (status : Nat) (msg : String)
  | exn (msg : String)
deriving DecidableEq

/-- What a run of the `error_handler` wrapper did: the returned value
(`none` models Python `None`), how many times `self._initialize_session()`
ran, and how many attempts of the wrapped function were made. -/
structure RunResult (α : Type) where
  result : Option α
  reinits : Nat
  attempts : Nat
deriving DecidableEq

/-- The `for retry_count in range(max_retries)` loop of `error_handler`:
on `HTTPError` whose text contains `"419"` it re-initializes the session and
retries; on any other `HTTPError` or exception it breaks; falling out of the
loop returns `None`. -/
def retryLoop {α : Type} (f : Nat → Outcome α) : Nat → Nat → RunResult α
  | 0, _ => ⟨none, 0, 0⟩
  | budget + 1, idx =>
    match f idx with
    | .ok v => ⟨some v, 0, 1⟩
    | .httpError _ msg =>
      if containsSub msg "419" then
        let r := retryLoop f budget (idx + 1)
        ⟨r.result, r.reinits + 1, r.attempts + 1⟩
      else ⟨none, 0, 1⟩
    | .exn _ => ⟨none, 0, 1⟩

/-- `_make_request`, i.e. the wrapped call with `max_retries = 3`. -/
def make_request {α : Type} (f : Nat → Outcome α) : RunResult α :=
  retryLoop f 3 0

/-! ## Message listing and polling (src/EmailNator.py lines 127-161) -/

/-- A message summary from the server's `messageData` array.  `time` is
optional because `get_new_message` reads it with `msg.get('time', '')`;
`sender` models the `"from"` key, which the source indexes directly. -/
structure Msg where
  messageID : String
  sender : String
  subject : String
  time : Option String
deriving DecidableEq

/-- The filter predicate of `get_message_list`: Python `"@" in msg["from"]`. -/
def hasAtSign (m : Msg) : Bool := (toL m.sender).contains '@'

/-- The list comprehension
`[msg for msg in response.json().get("messageData", []) if "@" in msg["from"]]`. -/
def msgComprehension : List Msg → List Msg
  | [] => []
  | m :: rest =>
    if hasAtSign m then m :: msgComprehension rest else msgComprehension rest

/-- `get_message_list`.  Its input models the request outcome: `none` when
`_make_request` returned `None`, `some msgs` when it returned a response
whose JSON held `messageData = msgs` (a missing key arrives as `some []`,
the `.get` default). -/
def get_message_list (resp : Option (List Msg)) : List Msg :=
  match resp with
  | none => []
  | some msgs => msgComprehension msgs

/-- `msg.get('time', '')`. -/
def timeGetD (m : Msg) : String := m.time.getD ""

/-- `get_new_message`, over the list returned by `get_message_list`.
`cb` records whether a callback was supplied; the second component is the
sequence of callback invocations, `some m` for `callback(msg)` and `none`
for `callback({})` (the empty record also stands for the empty-dict return
value in the first component). -/
def get_new_message (cb : Bool) : List Msg → Option Msg × List (Option Msg)
  | [] => (none, if cb then [none] else [])
  | m :: rest =>
    if timeGetD m = "Just Now" then (some m, if cb then [some m] else [])
    else get_new_message cb rest

/-! ## Address generation (src/EmailNator.py lines 95-125) -/

/-- `generate_email`.  Its input models the request outcome: `none` when
`_make_request` returned `None`, otherwise the list
`response.json().get("email", [None])`.  Indexing `[0]` on an empty list
would raise `IndexError`, hence the `Except`. -/
def generate_email (resp : Option (List (Option String))) :
    Except String (Option String) :=
  match resp with
  | none => .ok none
  | some [] => .error "IndexError: list index out of range"
  | some (e :: _) => .ok e

/-- Python truthiness of an `Optional[str]` (`None` and `""` are falsy),
as tested by `if email and self._is_premium_email(email, num):`. -/
def pyTruthy : Option String → Bool
  | none => false
  | some s => !(s == "")

/-- The `for attempt in range(1, max_attempts + 1)` loop of
`generate_premium_email`; `gen attempt` is what `generate_email` returns on
that attempt.  Yields the returned value and the number of `generate_email`
calls made. -/
def gpeLoop (gen : Nat → Option String) (num : Nat) :
    Nat → Nat → Option String × Nat
  | 0, _ => (none, 0)
  | fuel + 1, attempt =>
    let email := gen attempt
    if pyTruthy email && is_premium_email (toL (email.getD "")) num then
      (email, 1)
    else
      let r := gpeLoop gen num fuel (attempt + 1)
      (r.1, r.2 + 1)

/-- `generate_premium_email(max_attempts, num, ...)`, returning the result
together with the count of generation requests issued. -/
def generate_premium_email (gen : Nat → Option String)
    (max_attempts num : Nat) : Option String × Nat :=
  gpeLoop gen num max_attempts 1

/-! ## `_parse_email_content` / `get_email_content`
(src/EmailNator.py lines 163-189)

BeautifulSoup is an external collaborator: the parsed document is modelled
by the raw text (used for the body split) plus the result of
`soup.find(id="subject-header")` — `none` when absent, otherwise the
`next_sibling` text of each `<b>` under it in document order (`none` for a
`<b>` whose sibling is not a string). -/

/-- The fixed divider marker `'<hr /></div></div>'`. -/
def divider : List Char := toL "<hr /></div></div>"

/-- Python `content.split(pat, 1)` (a list of one or two pieces). -/
def pySplit1 (pat s : List Char) : List (List Char) :=
  match splitFirst pat s with
  | some (b, a) => [b, a]
  | none => [s]

/-- The `"body"` expression of `_parse_email_content`:
`content.split('<hr /></div></div>', 1)[-1].strip()` when the marker occurs
in `content`, else `''`. -/
def bodyOf (content : List Char) : List Char :=
  if containsSeq divider content then trimL ((pySplit1 divider content).getLastD [])
  else []

/-- The body extraction as the spec states it: the text following the
first occurrence of the divider marker, trimmed, or empty when absent. -/
def specBody (content : List Char) : List Char :=
  match firstOccIdx divider content with
  | some i => trimL (content.drop (i + divider.length))
  | none => []

/-- An HTML response as `_parse_email_content` observes it through its
collaborators: the raw text, and the subject header as found by the HTML
extractor. -/
structure Html where
  raw : List Char
  header : Option (List (Option (List Char)))

/-- The record built by `_parse_email_content`. -/
structure EmailDetails where
  sender : List Char
  subject : List Char
  time : List Char
  body : List Char
deriving DecidableEq

/-- `_parse_email_content`.  `header.find_all('b')[i]` on a missing header
raises `AttributeError`; indexing past the end raises `IndexError`; calling
`.strip()` on a non-string sibling raises `AttributeError`.  All three are
unhandled in the source, hence `Except`. -/
def parse_email_content (h : Html) : Except String EmailDetails :=
  match h.header with
  | none => .error "AttributeError: NoneType has no attribute find_all"
  | some bolds =>
    match bolds[0]?, bolds[1]?, bolds[2]? with
    | some s0, some s1, some s2 =>
      match s0, s1, s2 with
      | some t0, some t1, some t2 =>
        .ok ⟨trimL t0, trimL t1, trimL t2, bodyOf h.raw⟩
      | _, _, _ => .error "AttributeError: strip of non-string sibling"
    | _, _, _ => .error "IndexError: list index out of range"

/-- `get_email_content`.  Its input models the request outcome: `none` when
`_make_request` returned `None` (the source then returns `{}`, modelled as
`.ok none`), otherwise the response HTML, which is parsed — and whose parse
faults propagate. -/
def get_email_content (resp : Option Html) : Except String (Option EmailDetails) :=
  match resp with
  | none => .ok none
  | some h => (parse_email_content h).map some

/-! ## Concrete inputs used by the witnesses below -/

/-- Attempt sequence: a 419 `HTTPError` first, then success. -/
def fAfter419 : Nat → Outcome Nat :=
  fun i => if i = 0 then .httpError 419 "419 Client Error: unknown status" else .ok 7

/-- Attempt sequence: a plain 500 `HTTPError` on every attempt. -/
def fHttp500 : Nat → Outcome Nat :=
  fun _ => .httpError 500 "500 Server Error: Internal Server Error"

/-- Attempt sequence: a non-HTTP exception on every attempt. -/
def fExn : Nat → Outcome Nat := fun _ => .exn "ConnectionError"

/-- Attempt sequence: a 404 `HTTPError` whose URL text happens to contain
`419`, then success. -/
def f404With419Url : Nat → Outcome Nat :=
  fun i =>
    if i = 0 then .httpError 404 "404 Client Error: Not Found for url: https://www.emailnator.com/419/x"
    else .ok 7

/-- Attempt sequence: a genuine 419 whose exception text lacks `"419"`. -/
def f419NoText : Nat → Outcome Nat :=
  fun i => if i = 0 then .httpError 419 "Session expired" else .ok 7

/-- A message summary that is five minutes old. -/
def msgOld : Msg :=
  ⟨"id1", "Alice <alice@example.com>", "hello", some "5 min ago"⟩

/-- A message summary that just arrived. -/
def msgNew : Msg :=
  ⟨"id2", "Bob <bob@example.com>", "hi", some "Just Now"⟩

/-! # Theorems -/

/-! ### Counting lemmas for `pySplitC` -/

theorem pySplitC_cons (sep c : Char) (rest p : List Char) (ps : List (List Char))
    (h : pySplitC sep rest = p :: ps) :
    pySplitC sep (c :: rest)
      = if c == sep then [] :: p :: ps else (c :: p) :: ps := by
  simp only [pySplitC, h]

theorem pySplitC_ne_nil (sep : Char) (s : List Char) : pySplitC sep s ≠ [] := by
  induction s with
  | nil => simp [pySplitC]
  | cons c rest ih =>
    obtain ⟨p, ps, h⟩ := List.exists_cons_of_ne_nil ih
    rw [pySplitC_cons sep c rest p ps h]
    split <;> simp

theorem length_pySplitC (sep : Char) (s : List Char) :
    (pySplitC sep s).length = 1 + countC sep s := by
  induction s with
  | nil => simp [pySplitC, countC]
  | cons c rest ih =>
    obtain ⟨p, ps, h⟩ := List.exists_cons_of_ne_nil (pySplitC_ne_nil sep rest)
    rw [pySplitC_cons sep c rest p ps h]
    rw [h] at ih
    by_cases hc : c == sep <;> simp [hc, countC] at ih ⊢ <;> omega

theorem countC_pySplitC (sep d : Char) (hd : ¬(d == sep)) (s : List Char) :
    ((pySplitC sep s).map (countC d)).sum = countC d s := by
  induction s with
  | nil => simp [pySplitC, countC]
  | cons c rest ih =>
    obtain ⟨p, ps, h⟩ := List.exists_cons_of_ne_nil (pySplitC_ne_nil sep rest)
    rw [pySplitC_cons sep c rest p ps h]
    rw [h] at ih
    by_cases hc : c == sep
    · have hcd : ¬(c == d) := by
        simp only [beq_iff_eq] at hc hd ⊢
        exact fun hh => hd (hh ▸ hc ▸ rfl)
      simp [hc, countC, hcd] at ih ⊢
      omega
    · simp [hc, countC] at ih ⊢
      omega

theorem sum_map_one_add {α : Type} (f : α → Nat) (L : List α) :
    (L.map (fun a => 1 + f a)).sum = L.length + (L.map f).sum := by
  induction L with
  | nil => simp
  | cons a L ih => simp [ih]; omega

/-- The total token count computed inside `_is_premium_email` equals
`1 + (#dots) + (#pluses)` over the **whole** address string. -/
theorem all_parts_length (email : List Char) :
    (((pySplitC '.' email).map (pySplitC '+')).flatten).length
      = 1 + countC '.' email + countC '+' email := by
  have hlen : (((pySplitC '.' email).map (pySplitC '+')).flatten).length
      = ((pySplitC '.' email).map (fun p => 1 + countC '+' p)).sum := by
    rw [List.length_flatten, List.map_map]
    congr 1
    apply List.map_congr_left
    intro p _
    exact length_pySplitC '+' p
  rw [hlen, sum_map_one_add (fun p => countC '+' p), length_pySplitC,
    countC_pySplitC '.' '+' (by decide)]

/-- C1 (counterexample): the claim states the heuristic counts segments of the
**local part**, making `_is_premium_email("a.b+c@gmail.com", 2)` true
(3 local segments ≤ 3).  The code splits the whole address and returns
`False` on that very input. -/
theorem C1_counterexample :
    is_premium_email (toL "a.b+c@gmail.com") 2 = false ∧
    claimPremium (toL "a.b+c@gmail.com") 2 = true := by
  constructor <;> rfl

/-- C1 (amended): `_is_premium_email(a, n)` returns true iff the number of
segments obtained by splitting the **entire address string** on `'.'` and then
splitting each piece on `'+'` — equivalently `1 + (#'.' in a) + (#'+' in a)` —
is at most `n + 1`; in particular `_is_premium_email("a.b+c@gmail.com", 2)`
and `_is_premium_email("a.b.c+d@gmail.com", 2)` are both false. -/
theorem C1_amended (email : List Char) (num : Nat) :
    (is_premium_email email num
        = decide (1 + countC '.' email + countC '+' email ≤ num + 1)) ∧
    is_premium_email (toL "a.b+c@gmail.com") 2 = false ∧
    is_premium_email (toL "a.b.c+d@gmail.com") 2 = false := by
  refine ⟨?_, rfl, rfl⟩
  simp only [is_premium_email, all_parts_length]

/-! ### Retry policy (`error_handler`) -/

theorem retryLoop_attempts_le {α : Type} (f : Nat → Outcome α)
    (budget idx : Nat) : (retryLoop f budget idx).attempts ≤ budget := by
  induction budget generalizing idx with
  | zero => simp [retryLoop]
  | succ b ih =>
    simp only [retryLoop]
    cases f idx with
    | ok v => simp
    | httpError s m =>
      by_cases hc : containsSub m "419"
      · simp only [hc, if_true]
        exact Nat.succ_le_succ (ih (idx + 1))
      · simp [hc]
    | exn m => simp

theorem retryLoop_result_none {α : Type} (f : Nat → Outcome α)
    (hf : ∀ i r, f i ≠ .ok r) (budget idx : Nat) :
    (retryLoop f budget idx).result = none := by
  induction budget generalizing idx with
  | zero => rfl
  | succ b ih =>
    simp only [retryLoop]
    cases hfi : f idx with
    | ok v => exact absurd hfi (hf idx v)
    | httpError s m =>
      by_cases hc : containsSub m "419"
      · simp only [hc, if_true]
        simpa using ih (idx + 1)
      · simp [hc]
    | exn m => rfl

/-- C2: when the first attempt of `_make_request` raises an HTTP 419 error
and the retried attempt succeeds, the returned value is the second attempt's
response, exactly one session re-initialization has occurred, and in all
cases at most 3 attempts are made. -/
theorem C2_retry_419_then_success {α : Type} (f : Nat → Outcome α)
    (s : Nat) (m : String) (r : α)
    (h0 : f 0 = .httpError s m) (hm : containsSub m "419" = true)
    (h1 : f 1 = .ok r) :
    make_request f = ⟨some r, 1, 2⟩ ∧
    ∀ (g : Nat → Outcome α), (make_request g).attempts ≤ 3 := by
  refine ⟨?_, fun g => retryLoop_attempts_le g 3 0⟩
  simp [make_request, retryLoop, h0, hm, h1]

theorem C2_witness :
    make_request fAfter419 = ⟨some 7, 1, 2⟩ ∧
    ∀ (g : Nat → Outcome Nat), (make_request g).attempts ≤ 3 :=
  C2_retry_419_then_success fAfter419 419 "419 Client Error: unknown status" 7
    rfl (by decide) rfl

/-- C3 (counterexample): the claim promises that any HTTP error that is not
a 419 is abandoned after exactly one attempt with no re-initialization and a
`None` return.  But `error_handler` classifies by the text of `str(e)`, not
the status: a status-404 error whose URL text contains `"419"` is
re-authenticated and retried, and the retried attempt's value is returned —
two attempts, one re-initialization, a non-`None` result. -/
theorem C3_counterexample :
    make_request f404With419Url = ⟨some 7, 1, 2⟩ ∧
    ¬ ((make_request f404With419Url).attempts = 1 ∧
        (make_request f404With419Url).reinits = 0 ∧
        (make_request f404With419Url).result = none) := by
  constructor <;> decide

/-- C3 (amended): on an HTTP error whose exception text does not contain
`"419"`, exactly one attempt is made, no re-initialization occurs, and
`_make_request` returns `None`; likewise for any non-HTTP exception. -/
theorem C3_non419_single_attempt {α : Type} (f : Nat → Outcome α) :
    (∀ s m, f 0 = .httpError s m → containsSub m "419" = false →
      make_request f = ⟨none, 0, 1⟩) ∧
    (∀ m, f 0 = .exn m → make_request f = ⟨none, 0, 1⟩) := by
  constructor
  · intro s m h0 hm
    simp [make_request, retryLoop, h0, hm]
  · intro m h0
    simp [make_request, retryLoop, h0]

theorem C3_witness :
    make_request fHttp500 = ⟨none, 0, 1⟩ ∧
    make_request fExn = ⟨none, 0, 1⟩ :=
  ⟨(C3_non419_single_attempt fHttp500).1 500
      "500 Server Error: Internal Server Error" rfl (by decide),
    (C3_non419_single_attempt fExn).2 "ConnectionError" rfl⟩

/-- C7: when no attempt of the wrapped request succeeds, `_make_request`
returns `None` without raising, and on an absent response `generate_email`
returns `None`, `get_message_list` returns `[]`, and `get_email_content`
returns the empty record rather than raising. -/
theorem C7_failures_yield_empty (f : Nat → Outcome Nat)
    (hf : ∀ i r, f i ≠ .ok r) :
    (make_request f).result = none ∧
    generate_email none = .ok none ∧
    get_message_list none = [] ∧
    get_email_content none = .ok none :=
  ⟨retryLoop_result_none f hf 3 0, rfl, rfl, rfl⟩

theorem C7_witness :
    (make_request fExn).result = none ∧
    generate_email none = .ok none ∧
    get_message_list none = [] ∧
    get_email_content none = .ok none :=
  C7_failures_yield_empty fExn (fun _ _ h => Outcome.noConfusion h)

/-- C10: the retryable-error classification is a substring test on the
exception text: re-initialization happens iff `"419"` occurs in `str(e)`,
regardless of the actual status — a 404 whose URL contains `419` is
re-authenticated and retried, while a genuine 419 whose text lacks `"419"`
is not. -/
theorem C10_classification_by_text :
    (∀ (f : Nat → Outcome Nat) (s : Nat) (m : String), f 0 = .httpError s m →
      (1 ≤ (make_request f).reinits ↔ containsSub m "419" = true)) ∧
    make_request f404With419Url = ⟨some 7, 1, 2⟩ ∧
    make_request f419NoText = ⟨none, 0, 1⟩ := by
  refine ⟨?_, by decide, by decide⟩
  intro f s m h0
  by_cases hc : containsSub m "419" = true
  · have h : (make_request f).reinits = (retryLoop f 2 1).reinits + 1 := by
      simp [make_request, retryLoop, h0, hc]
    exact iff_of_true (by rw [h]; omega) hc
  · have h : (make_request f).reinits = 0 := by
      simp [make_request, retryLoop, h0, Bool.of_not_eq_true hc]
    exact iff_of_false (by rw [h]; omega) hc

theorem C10_witness :
    1 ≤ (make_request f404With419Url).reinits ↔
      containsSub
        "404 Client Error: Not Found for url: https://www.emailnator.com/419/x"
        "419" = true :=
  C10_classification_by_text.1 f404With419Url 404
    "404 Client Error: Not Found for url: https://www.emailnator.com/419/x" rfl

/-! ### Message listing and polling -/

/-- C4: `get_new_message` returns the first message (in list order) whose
`time` field is the literal `"Just Now"`, skipping earlier entries with any
other time, and invokes the callback (when provided) with exactly the value
it returns — the empty record when nothing matches. -/
theorem C4_first_just_now (msgs : List Msg) (cb : Bool) :
    ((get_new_message cb msgs).1
        = msgs.find? (fun m => timeGetD m == "Just Now")) ∧
    ((get_new_message cb msgs).2
        = if cb then [(get_new_message cb msgs).1] else []) ∧
    get_new_message true [msgOld, msgNew] = (some msgNew, [some msgNew]) := by
  have hfind : ∀ l : List Msg,
      (get_new_message cb l).1 = l.find? (fun m => timeGetD m == "Just Now") := by
    intro l
    induction l with
    | nil => simp [get_new_message, List.find?]
    | cons m rest ih =>
      cases hb : timeGetD m == "Just Now" with
      | true =>
        have hm : timeGetD m = "Just Now" := by simpa using hb
        simp [get_new_message, hm, List.find?, hb]
      | false =>
        have hm : ¬ timeGetD m = "Just Now" := by simpa using hb
        simp [get_new_message, hm, List.find?, hb, ih]
  have hcb : ∀ l : List Msg,
      (get_new_message cb l).2
        = if cb then [(get_new_message cb l).1] else [] := by
    intro l
    induction l with
    | nil => simp [get_new_message]
    | cons m rest ih =>
      by_cases hm : timeGetD m = "Just Now" <;> simp [get_new_message, hm, ih]
  exact ⟨hfind msgs, hcb msgs, by decide⟩

/-- C6: `get_message_list` returns exactly the entries of the server's
`messageData` array whose `from` field contains `'@'`, in order (a sublist
of the input), and the empty list when the request failed. -/
theorem C6_filter_at_sign (msgs : List Msg) :
    get_message_list (some msgs) = msgs.filter hasAtSign ∧
    (get_message_list (some msgs)).Sublist msgs ∧
    (∀ m, m ∈ get_message_list (some msgs) ↔ m ∈ msgs ∧ hasAtSign m = true) ∧
    get_message_list none = [] := by
  have hfil : msgComprehension msgs = msgs.filter hasAtSign := by
    induction msgs with
    | nil => rfl
    | cons m rest ih =>
      by_cases hm : hasAtSign m <;>
        simp [msgComprehension, hm, ih, List.filter_cons]
  have hdef : get_message_list (some msgs) = msgComprehension msgs := rfl
  refine ⟨hdef ▸ hfil, ?_, ?_, rfl⟩
  · rw [hdef, hfil]
    exact List.filter_sublist msgs
  · intro m
    rw [hdef, hfil]
    exact List.mem_filter

/-- C9: `generate_premium_email` with `max_attempts = 0` returns `None`
and never calls `generate_email` (zero generation requests issued). -/
theorem C9_zero_attempts (gen : Nat → Option String) (num : Nat) :
    generate_premium_email gen 0 num = (none, 0) := rfl

/-! ### Body extraction and HTML parse faults -/

theorem containsSeq_eq_isSome (pat s : List Char) :
    containsSeq pat s = (firstOccIdx pat s).isSome := by
  induction s with
  | nil =>
    simp only [containsSeq, firstOccIdx]
    by_cases hp : isPrefixL pat [] = true <;> simp [hp]
  | cons c rest ih =>
    simp only [containsSeq, firstOccIdx]
    by_cases hp : isPrefixL pat (c :: rest) = true <;> simp [hp, ih]

theorem splitFirst_eq_firstOccIdx (pat s : List Char) :
    splitFirst pat s
      = (firstOccIdx pat s).map
          (fun i => (s.take i, s.drop (i + pat.length))) := by
  induction s with
  | nil =>
    simp only [splitFirst, firstOccIdx]
    by_cases hp : isPrefixL pat [] = true <;> simp [hp]
  | cons c rest ih =>
    simp only [splitFirst, firstOccIdx]
    by_cases hp : isPrefixL pat (c :: rest) = true
    · simp [hp]
    · simp only [hp, if_false, Bool.false_eq_true, ih]
      cases hocc : firstOccIdx pat rest with
      | none => simp
      | some i =>
        have hidx : i + 1 + pat.length = (i + pat.length) + 1 := by omega
        simp [hidx, List.take_succ_cons, List.drop_succ_cons]

/-- C5: the `body` field produced by `_parse_email_content` is the text
following the **first** occurrence of the fixed divider marker
`'<hr /></div></div>'`, trimmed, and the empty string when the marker is
absent; e.g. a document whose marker is followed by `" Hello "` yields the
body `"Hello"`. -/
theorem C5_body_after_divider :
    (∀ content, bodyOf content = specBody content) ∧
    bodyOf (toL "<div><hr /></div></div> Hello ") = toL "Hello" ∧
    bodyOf (toL "<div>no marker</div>") = [] := by
  refine ⟨?_, by decide, by decide⟩
  intro content
  unfold bodyOf specBody pySplit1
  rw [containsSeq_eq_isSome, splitFirst_eq_firstOccIdx]
  cases hocc : firstOccIdx divider content with
  | none => simp
  | some i => simp

/-- C8: when the HTML has no `subject-header` element or fewer than three
`<b>` elements under it, `_parse_email_content` faults, and the fault
propagates through `get_email_content` instead of yielding an empty-field
record. -/
theorem C8_parse_fault (h : Html)
    (hbad : h.header = none ∨
      ∃ bolds, h.header = some bolds ∧ bolds.length < 3) :
    ∃ e, parse_email_content h = Except.error e ∧
      get_email_content (some h) = Except.error e := by
  have hkey : ∃ e, parse_email_content h = Except.error e := by
    rcases hbad with hnone | ⟨bolds, hsome, hlen⟩
    · exact ⟨"AttributeError: NoneType has no attribute find_all",
        by simp [parse_email_content, hnone]⟩
    · have h2 : bolds[2]? = none := List.getElem?_eq_none (by omega)
      cases h0 : bolds[0]? <;> cases h1 : bolds[1]? <;>
        exact ⟨"IndexError: list index out of range",
          by simp [parse_email_content, hsome, h0, h1, h2]⟩
  obtain ⟨e, he⟩ := hkey
  exact ⟨e, he, by simp [get_email_content, he, Except.map]⟩

theorem C8_witness :
    ∃ e, parse_email_content ⟨[], none⟩ = Except.error e ∧
      get_email_content (some ⟨[], none⟩) = Except.error e :=
  C8_parse_fault ⟨[], none⟩ (Or.inl rfl)

end EmailNator
